import Mathlib

/-!
Verification of the Volunteer Hours Tracker (server.js + googleSheetsAPI.js).

Shallow embedding notes:
- JS numbers arising from parseFloat are modelled as unreduced integer
  fractions (Frac); the special value NaN is modelled by Option.none.
  The rational value of a fraction (fracVal) is used only in statements.
- Remote worksheet operations are abstracted by an oracle
  (Sheet -> Option String): none means the write succeeds, some msg means
  the operation throws an error with that message. The sync orchestrator
  is modelled as a pure function returning the list of attempted
  worksheet writes together with its structured result.
- JSON objects are modelled as records over the fields the program reads;
  a missing field is Option.none. JS string truthiness (empty string is
  falsy) is modelled explicitly where the code relies on it.
- localeCompare on lowercased names is modelled as lexicographic
  comparison of the ASCII-lowercased strings; Date parsing is modelled by
  an order-preserving encoding of ISO 8601 date/time strings, with
  unparseable dates mapped to none (the comparator then treats the pair
  as equal, mirroring how a NaN comparator result is treated as 0).
-/

/-- A JS finite number kept as an unreduced fraction num/den (den positive
by construction everywhere it is produced). -/
structure Frac where
  num : Int
  den : Nat
deriving DecidableEq, Repr

/-- Rational value of a fraction; used in specifications only. -/
def fracVal (f : Frac) : ℚ := (f.num : ℚ) / (f.den : ℚ)

/-- Addition of fractions without normalisation. -/
def fracAdd (a b : Frac) : Frac :=
  ⟨a.num * (b.den : Int) + b.num * (a.den : Int), a.den * b.den⟩

/-- JS addition where NaN (none) absorbs. -/
def jsAdd : Option Frac → Option Frac → Option Frac
  | some a, some b => some (fracAdd a b)
  | _, _ => none

def digitVal (c : Char) : Nat := c.toNat - 48

def natOfDigits (l : List Char) : Nat := l.foldl (fun n c => 10 * n + digitVal c) 0

/-- Split a character list into its leading run of ASCII digits and the rest. -/
def spanDigits : List Char → List Char × List Char
  | [] => ([], [])
  | c :: cs =>
    if c.isDigit then
      let r := spanDigits cs
      (c :: r.1, r.2)
    else ([], c :: cs)

/-- Exponent suffix of a JS float literal; an exponent marker without any
digit after it contributes nothing, as in parseFloat. -/
def parseExp : List Char → Int
  | [] => 0
  | c :: rest =>
    if c = 'e' ∨ c = 'E' then
      match rest with
      | '+' :: r2 => let d := spanDigits r2; if d.1.isEmpty then 0 else (natOfDigits d.1 : Int)
      | '-' :: r2 => let d := spanDigits r2; if d.1.isEmpty then 0 else -(natOfDigits d.1 : Int)
      | r2 => let d := spanDigits r2; if d.1.isEmpty then 0 else (natOfDigits d.1 : Int)
    else 0

/-- Assemble integer part, fraction part and exponent into a fraction. -/
def buildFrac (ip fp : List Char) (e : Int) : Frac :=
  let base : Int := ((natOfDigits ip * 10 ^ fp.length + natOfDigits fp : Nat) : Int)
  match e with
  | Int.ofNat k => ⟨base * (10 : Int) ^ k, 10 ^ fp.length⟩
  | Int.negSucc k => ⟨base, 10 ^ fp.length * 10 ^ (k + 1)⟩

/-- Unsigned part of parseFloat: digits, optional decimal point with
digits, optional exponent; trailing garbage is ignored. -/
def parseUnsigned (l : List Char) : Option Frac :=
  match (spanDigits l).2 with
  | '.' :: r2 =>
    if (spanDigits l).1.isEmpty ∧ (spanDigits r2).1.isEmpty then none
    else some (buildFrac (spanDigits l).1 (spanDigits r2).1 (parseExp (spanDigits r2).2))
  | _ =>
    if (spanDigits l).1.isEmpty then none
    else some (buildFrac (spanDigits l).1 [] (parseExp (spanDigits l).2))

def isWs (c : Char) : Bool := c = ' ' ∨ c = '\t' ∨ c = '\n' ∨ c = '\r'

/-- Model of JS parseFloat on finite decimal literals: leading whitespace
and an optional sign, then an unsigned float literal; none models NaN. -/
def jsParseFloat (s : String) : Option Frac :=
  match s.data.dropWhile isWs with
  | '+' :: r => parseUnsigned r
  | '-' :: r => (parseUnsigned r).map (fun f => ⟨-f.num, f.den⟩)
  | r => parseUnsigned r

/-- Model of Number.prototype.toFixed(2): NaN renders as "NaN"; otherwise
the sign is split off and the absolute value is rounded half towards the
larger candidate, then printed with exactly two decimals. -/
def jsToFixed2 : Option Frac → String
  | none => "NaN"
  | some f =>
    if f.den = 0 then "NaN"
    else
      let a : Nat := f.num.natAbs
      let n : Nat := (200 * a + f.den) / (2 * f.den)
      let s := toString (n / 100) ++ "." ++ (if n % 100 < 10 then "0" else "") ++ toString (n % 100)
      if f.num < 0 then "-" ++ s else s

/-- Volunteer record as consumed by the sync (googleSheetsAPI.js). -/
structure Volunteer where
  id : String
  name : String
  phone : String
  email : String
deriving DecidableEq, Repr

/-- Event record as consumed by the sync; hours is optional because the
code guards it with a falsy check. -/
structure Event where
  id : String
  volunteerId : String
  name : String
  location : String
  date : String
  hours : Option String
deriving DecidableEq, Repr

/-- Value fed into the running total for one event:
parseFloat(event.hours || 0), so a missing or empty hours field becomes
the number 0 and anything else goes through parseFloat. -/
def hoursNum : Option String → Option Frac
  | none => some ⟨0, 1⟩
  | some s => if s = "" then some ⟨0, 1⟩ else jsParseFloat s

/-- Events of one volunteer, in stored order (events.filter in the code). -/
def eventsOf (events : List Event) (v : Volunteer) : List Event :=
  events.filter (fun e => e.volunteerId == v.id)

/-- Total hours of a volunteer: the reduce over the filtered events. -/
def volunteerTotalHours (events : List Event) (v : Volunteer) : Option Frac :=
  (eventsOf events v).foldl (fun sum e => jsAdd sum (hoursNum e.hours)) (some ⟨0, 1⟩)

/-- One worksheet cell: a number, a string, or the undefined value. -/
inductive Cell where
  | num (n : Nat)
  | str (s : String)
  | undef
deriving DecidableEq, Repr

/-- One worksheet write: title, header row and data rows. -/
structure Sheet where
  title : String
  header : List String
  rows : List (List Cell)
deriving DecidableEq, Repr

/-- ASCII lowercasing of a string, modelling toLowerCase on the names
that occur here. -/
def nameLower (s : String) : String := String.mk (s.data.map Char.toLower)

/-- Comparator of the volunteer sort: localeCompare of the lowercased
names, modelled as lexicographic order on the lowercased strings. -/
def volLe (a b : Volunteer) : Bool := decide (nameLower a.name ≤ nameLower b.name)

/-- Sorted copy of the volunteers ([...volunteers].sort in the code);
mergeSort is stable, as is the JS runtime sort. -/
def sortedVolunteers (vs : List Volunteer) : List Volunteer := vs.mergeSort volLe

/-- Row of the Volunteers sheet for the volunteer at 0-based index p.1. -/
def volunteerRow (events : List Event) (p : Nat × Volunteer) : List Cell :=
  [Cell.num (p.1 + 1), Cell.str p.2.name, Cell.str p.2.phone, Cell.str p.2.email,
   Cell.str (jsToFixed2 (volunteerTotalHours events p.2))]

/-- The Volunteers summary worksheet built by syncToGoogleSheets. -/
def volunteersSheet (vs : List Volunteer) (events : List Event) : Sheet :=
  ⟨"Volunteers", ["ID", "Name", "Phone", "Email", "Total Hours"],
   (sortedVolunteers vs).enum.map (volunteerRow events)⟩

/-- Order-preserving encoding of a calendar date and milliseconds of day. -/
def dateEncode (y mo d ms : Nat) : Nat := ((y * 13 + mo) * 32 + d) * 86400000 + ms

/-- Date part YYYY-MM-DD of an ISO 8601 string. -/
def parseDatePart : List Char → Option (Nat × Nat × Nat)
  | [y1, y2, y3, y4, '-', m1, m2, '-', d1, d2] =>
    if [y1, y2, y3, y4, m1, m2, d1, d2].all Char.isDigit then
      let y := natOfDigits [y1, y2, y3, y4]
      let mo := natOfDigits [m1, m2]
      let d := natOfDigits [d1, d2]
      if 1 ≤ mo ∧ mo ≤ 12 ∧ 1 ≤ d ∧ d ≤ 31 then some (y, mo, d) else none
    else none
  | _ => none

/-- Time part of an ISO 8601 string, as milliseconds of the day. -/
def parseTimePart (l : List Char) : Option Nat :=
  let l2 := if l.getLast? = some 'Z' then l.dropLast else l
  match l2 with
  | [h1, h2, ':', n1, n2] =>
    if [h1, h2, n1, n2].all Char.isDigit then
      let h := natOfDigits [h1, h2]
      let mi := natOfDigits [n1, n2]
      if h ≤ 23 ∧ mi ≤ 59 then some ((h * 3600 + mi * 60) * 1000) else none
    else none
  | [h1, h2, ':', n1, n2, ':', s1, s2] =>
    if [h1, h2, n1, n2, s1, s2].all Char.isDigit then
      let h := natOfDigits [h1, h2]
      let mi := natOfDigits [n1, n2]
      let se := natOfDigits [s1, s2]
      if h ≤ 23 ∧ mi ≤ 59 ∧ se ≤ 59 then some ((h * 3600 + mi * 60 + se) * 1000) else none
    else none
  | [h1, h2, ':', n1, n2, ':', s1, s2, '.', x1, x2, x3] =>
    if [h1, h2, n1, n2, s1, s2, x1, x2, x3].all Char.isDigit then
      let h := natOfDigits [h1, h2]
      let mi := natOfDigits [n1, n2]
      let se := natOfDigits [s1, s2]
      if h ≤ 23 ∧ mi ≤ 59 ∧ se ≤ 59 then
        some ((h * 3600 + mi * 60 + se) * 1000 + natOfDigits [x1, x2, x3])
      else none
    else none
  | _ => none

/-- Model of new Date(s).getTime() for ISO 8601 strings, up to a strictly
monotone re-encoding of the timestamp (only comparisons are ever used);
none models an invalid date (NaN timestamp). -/
def jsDateValue (s : String) : Option Nat :=
  match s.data.splitOn 'T' with
  | [d] => (parseDatePart d).map (fun p => dateEncode p.1 p.2.1 p.2.2 0)
  | [d, t] =>
    match parseDatePart d, parseTimePart t with
    | some p, some ms => some (dateEncode p.1 p.2.1 p.2.2 ms)
    | _, _ => none
  | _ => none

/-- Comparator of the per-volunteer event sort: new Date(a) - new Date(b);
a NaN comparator result is treated as 0 by the sort, hence the pair is
treated as equal when either date is invalid. -/
def evDateLe (a b : Event) : Bool :=
  match jsDateValue a.date, jsDateValue b.date with
  | some x, some y => decide (x ≤ y)
  | _, _ => true

def jsSortEventsByDate (evs : List Event) : List Event := evs.mergeSort evDateLe

/-- Cell holding the raw hours field of an event row. -/
def hoursCell : Option String → Cell
  | none => Cell.undef
  | some s => Cell.str s

/-- Row of an individual worksheet for the event at 0-based index p.1. -/
def eventRow (p : Nat × Event) : List Cell :=
  [Cell.num (p.1 + 1), Cell.str p.2.name, Cell.str p.2.location, Cell.str p.2.date,
   hoursCell p.2.hours]

/-- Title of the individual worksheet of a volunteer: the name with every
character outside a-z, A-Z, 0-9 replaced by a space, prefixed with
"Volunteer - ", and the whole resulting string truncated to 30
characters (the substring call applies to the already prefixed string). -/
def sheetTitle (name : String) : String :=
  String.mk ((("Volunteer - ").data ++ name.data.map (fun c => if c.isAlphanum then c else ' ')).take 30)

/-- Individual worksheet of a volunteer: their events sorted by date with
fresh 1-based display identifiers. -/
def volunteerSheet (v : Volunteer) (events : List Event) : Sheet :=
  ⟨sheetTitle v.name, ["ID", "Event", "Location", "Date", "Hours"],
   (jsSortEventsByDate (eventsOf events v)).enum.map eventRow⟩

/-- The individual worksheet writes of one sync pass, in loop order,
each paired with the volunteer it was produced for; a volunteer with no
events contributes nothing. -/
def volunteerSheets (vs : List Volunteer) (events : List Event) : List (Volunteer × Sheet) :=
  (sortedVolunteers vs).filterMap (fun v =>
    if eventsOf events v = [] then none
    else some (v, volunteerSheet v events))

/-- All worksheet writes of one sync pass, in order: the Volunteers
summary sheet first, then the individual sheets. -/
def syncPlan (vs : List Volunteer) (events : List Event) : List Sheet :=
  volunteersSheet vs events :: (volunteerSheets vs events).map Prod.snd

/-- Service account credential object; only client_email is ever read. -/
structure Credentials where
  client_email : Option String
deriving DecidableEq, Repr

/-- The sheetsConfig object. -/
structure SheetsConfig where
  spreadsheetId : Option String
  credentials : Option Credentials
deriving DecidableEq, Repr

/-- JS truthiness of an optional string field: absent, null and the empty
string are falsy. -/
def jsTruthy : Option String → Bool
  | none => false
  | some s => !(s == "")

/-- Structured result of syncToGoogleSheets: either success with the raw
collection counts, or failure carrying the error message. -/
inductive SyncResult where
  | ok (volunteersCount eventsCount : Nat)
  | err (error : String)
deriving DecidableEq, Repr

/-- Sequential execution of worksheet writes: each write is attempted in
order; the first failure aborts the rest. Returns the attempted writes
and the first error, if any. -/
def runPlan (oracle : Sheet → Option String) : List Sheet → List Sheet × Option String
  | [] => ([], none)
  | s :: rest =>
    match oracle s with
    | some e => ([s], some e)
    | none =>
      let r := runPlan oracle rest
      (s :: r.1, r.2)

/-- Model of syncToGoogleSheets: the configuration check, then the
sequential worksheet writes, with every thrown error caught and turned
into a structured failure result. Also returns the worksheet writes that
were attempted, for reasoning about remote side effects. -/
def syncToGoogleSheets (oracle : Sheet → Option String) (sheetsConfig : Option SheetsConfig)
    (volunteers : List Volunteer) (events : List Event) : List Sheet × SyncResult :=
  match sheetsConfig with
  | none => ([], .err "Google Sheets configuration is incomplete")
  | some sc =>
    if jsTruthy sc.spreadsheetId = false ∨ sc.credentials = none then
      ([], .err "Google Sheets configuration is incomplete")
    else
      let r := runPlan oracle (syncPlan volunteers events)
      match r.2 with
      | none => (r.1, .ok volunteers.length events.length)
      | some e => (r.1, .err e)

/-- Persisted server configuration. -/
structure ServerConfig where
  adminPassword : String
  sheetsConfig : Option SheetsConfig
deriving DecidableEq, Repr

def defaultServiceEmail : String := "the service account email"

/-- config.sheetsConfig.credentials?.client_email with the textual
fallback used by the facade. -/
def serviceEmailOf (sc : SheetsConfig) : String :=
  match sc.credentials with
  | some cr =>
    match cr.client_email with
    | some e => if e = "" then defaultServiceEmail else e
    | none => defaultServiceEmail
  | none => defaultServiceEmail

/-- Response of POST /api/sync/sheets, tagged by which sendJsonResponse
call produced it. -/
inductive SyncResponse where
  | ok (message : String) (volunteers events : Nat)
  | notConfigured (error : String)
  | permissionDenied (error serviceEmail : String)
  | serverError (error serviceEmail : String)
deriving DecidableEq, Repr

/-- HTTP status code of each facade response shape. -/
def statusOf : SyncResponse → Nat
  | .ok _ _ _ => 200
  | .notConfigured _ => 400
  | .permissionDenied _ _ => 403
  | .serverError _ _ => 500

/-- Containment of p as a contiguous run inside l, modelling
String.prototype.includes. -/
def hasSub (p : List Char) : List Char → Bool
  | [] => p.isEmpty
  | c :: rest => p.isPrefixOf (c :: rest) || hasSub p rest

def strIncludes (s pat : String) : Bool := hasSub pat.data s.data

def permissionMessage (serviceEmail : String) : String :=
  "Permission denied: The service account does not have access to this spreadsheet. Please share the spreadsheet with "
    ++ serviceEmail ++ " and give it Editor permission."

def successMessage (sc : SheetsConfig) : String :=
  "Synced with Google Sheets successfully. Spreadsheet ID: " ++ sc.spreadsheetId.getD ""

/-- Model of the POST /api/sync/sheets route: the facade precondition
check, the call into the sync, and the branching on the structured
result, including the substring test that detects permission errors.
Also returns any the attempted worksheet writes. -/
def syncRoute (cfg : ServerConfig) (volunteers : List Volunteer) (events : List Event)
    (oracle : Sheet → Option String) : SyncResponse × List Sheet :=
  match cfg.sheetsConfig with
  | none => (.notConfigured "Google Sheets not configured", [])
  | some sc =>
    if jsTruthy sc.spreadsheetId = false then (.notConfigured "Google Sheets not configured", [])
    else
      match (syncToGoogleSheets oracle (some sc) volunteers events).2 with
      | .ok vc ec =>
        (.ok (successMessage sc) vc ec, (syncToGoogleSheets oracle (some sc) volunteers events).1)
      | .err e =>
        if e ≠ "" ∧ strIncludes e "permission" = true then
          (.permissionDenied (permissionMessage (serviceEmailOf sc)) (serviceEmailOf sc),
           (syncToGoogleSheets oracle (some sc) volunteers events).1)
        else
          (.serverError (if e = "" then "Unknown error during sync" else e) (serviceEmailOf sc),
           (syncToGoogleSheets oracle (some sc) volunteers events).1)

/-- Volunteer record as stored by server.js; fields other than the id may
be absent because the stored object is the spread of the request body. -/
structure VolRec where
  id : String
  name : Option String
  phone : Option String
  email : Option String
  createdAt : String
deriving DecidableEq, Repr

/-- Event record as stored by server.js. -/
structure EvRec where
  id : String
  volunteerId : Option String
  name : Option String
  location : Option String
  date : String
  hours : Option String
  createdAt : String
deriving DecidableEq, Repr

/-- Request body of POST /api/volunteers, restricted to the keys the
stored object shape depends on; none models an absent key. -/
structure VolunteerBody where
  id : Option String
  name : Option String
  phone : Option String
  email : Option String
deriving DecidableEq, Repr

/-- Request body of POST /api/events, restricted likewise. -/
structure EventBody where
  id : Option String
  volunteerId : Option String
  name : Option String
  location : Option String
  date : Option String
  hours : Option String
deriving DecidableEq, Repr

/-- The two flat collections of the record store. -/
structure ServerState where
  volunteers : List VolRec
  events : List EvRec
deriving DecidableEq, Repr

/-- Object built by POST /api/volunteers: the spread of the body comes
after the generated id, so a body id overrides it, while createdAt comes
after the spread and always wins. -/
def mkVolRec (body : VolunteerBody) (genId now : String) : VolRec :=
  ⟨body.id.getD genId, body.name, body.phone, body.email, now⟩

def createVolunteerRoute (st : ServerState) (body : VolunteerBody) (genId now : String) :
    ServerState × Nat × VolRec :=
  let v := mkVolRec body genId now
  ({ st with volunteers := st.volunteers ++ [v] }, 201, v)

/-- Object built by POST /api/events; the date key comes after the spread
and falls back to the current time when the body date is falsy. -/
def mkEvRec (body : EventBody) (genId now : String) : EvRec :=
  ⟨body.id.getD genId, body.volunteerId, body.name, body.location,
   (match body.date with
    | some s => if s = "" then now else s
    | none => now),
   body.hours, now⟩

def createEventRoute (st : ServerState) (body : EventBody) (genId now : String) :
    ServerState × Nat × EvRec :=
  let e := mkEvRec body genId now
  ({ st with events := st.events ++ [e] }, 201, e)

/-- Model of DELETE /api/volunteers/:id — findIndex, splice of that one
index, and the cascade filter on events; 404 leaves both collections
untouched. -/
def deleteVolunteerRoute (st : ServerState) (id : String) : ServerState × Nat :=
  match st.volunteers.findIdx? (fun v => v.id == id) with
  | none => (st, 404)
  | some i => (⟨st.volunteers.eraseIdx i, st.events.filter (fun e => !(e.volunteerId == some id))⟩, 200)

/-- Title derivation exactly as the claim words it: replace non
alphanumerics with spaces, truncate the NAME to 30 characters, then
prefix. Stated for comparison against sheetTitle, which truncates the
already prefixed string. -/
def claimTitle (name : String) : String :=
  "Volunteer - " ++ String.mk ((name.data.map (fun c => if c.isAlphanum then c else ' ')).take 30)

/-- Title derivation as amended: replace non alphanumerics with spaces,
prefix, then truncate the whole title to 30 characters. -/
def amendedTitle (name : String) : String :=
  String.mk (("Volunteer - " ++ String.mk (name.data.map (fun c => if c.isAlphanum then c else ' '))).data.take 30)

/-- Rational value of an optional fraction, with NaN mapped to 0; used
only to state sums in specifications. -/
def fracValOpt : Option Frac → ℚ
  | some f => fracVal f
  | none => 0

theorem buildFrac_den_pos (ip fp : List Char) (e : Int) : 0 < (buildFrac ip fp e).den := by
  cases e with
  | ofNat k =>
    show 0 < 10 ^ fp.length
    positivity
  | negSucc k =>
    show 0 < 10 ^ fp.length * 10 ^ (k + 1)
    positivity

theorem parseUnsigned_den_pos (l : List Char) (f : Frac) (h : parseUnsigned l = some f) :
    0 < f.den := by
  unfold parseUnsigned at h
  split at h
  · split at h
    · exact absurd h (by simp)
    · obtain rfl : buildFrac _ _ _ = f := by injection h
      exact buildFrac_den_pos _ _ _
  · split at h
    · exact absurd h (by simp)
    · obtain rfl : buildFrac _ _ _ = f := by injection h
      exact buildFrac_den_pos _ _ _

theorem jsParseFloat_den_pos (s : String) (f : Frac) (h : jsParseFloat s = some f) :
    0 < f.den := by
  unfold jsParseFloat at h
  split at h
  · exact parseUnsigned_den_pos _ _ h
  · rcases Option.map_eq_some'.mp h with ⟨g, hg, rfl⟩
    exact parseUnsigned_den_pos _ g hg
  · exact parseUnsigned_den_pos _ _ h

theorem hoursNum_den_pos (o : Option String) (f : Frac) (h : hoursNum o = some f) :
    0 < f.den := by
  unfold hoursNum at h
  split at h
  · obtain rfl : (⟨0, 1⟩ : Frac) = f := by injection h
    decide
  · split at h
    · obtain rfl : (⟨0, 1⟩ : Frac) = f := by injection h
      decide
    · exact jsParseFloat_den_pos _ _ h

theorem fracVal_fracAdd (a b : Frac) (ha : 0 < a.den) (hb : 0 < b.den) :
    fracVal (fracAdd a b) = fracVal a + fracVal b := by
  have ha' : ((a.den : Nat) : ℚ) ≠ 0 := by exact_mod_cast ha.ne'
  have hb' : ((b.den : Nat) : ℚ) ≠ 0 := by exact_mod_cast hb.ne'
  simp only [fracVal, fracAdd]
  push_cast
  field_simp

theorem foldl_jsAdd_ok (l : List Event) (acc : Frac) (hacc : 0 < acc.den)
    (h : ∀ e ∈ l, (hoursNum e.hours).isSome = true) :
    ∃ F, l.foldl (fun s e => jsAdd s (hoursNum e.hours)) (some acc) = some F ∧ 0 < F.den ∧
      fracVal F = fracVal acc + (l.map (fun e => fracValOpt (hoursNum e.hours))).sum := by
  induction l generalizing acc with
  | nil => exact ⟨acc, rfl, hacc, by simp⟩
  | cons a t ih =>
    have ha := h a (by simp)
    rcases Option.isSome_iff_exists.mp ha with ⟨g, hg⟩
    have hgden := hoursNum_den_pos _ _ hg
    have hstep : jsAdd (some acc) (hoursNum a.hours) = some (fracAdd acc g) := by
      rw [hg]; rfl
    rcases ih (fracAdd acc g) (by simpa [fracAdd] using Nat.mul_pos hacc hgden)
        (fun e he => h e (by simp [he])) with ⟨F, hF, hFden, hFval⟩
    refine ⟨F, ?_, hFden, ?_⟩
    · simpa [hstep] using hF
    · rw [hFval, fracVal_fracAdd acc g hacc hgden]
      simp only [List.map_cons, List.sum_cons, fracValOpt, hg]
      ring

theorem foldl_jsAdd_none (l : List Event) :
    l.foldl (fun s e => jsAdd s (hoursNum e.hours)) none = none := by
  induction l with
  | nil => rfl
  | cons a t ih => simpa [jsAdd] using ih

theorem foldl_jsAdd_bad (l : List Event) (acc : Option Frac)
    (h : ∃ e ∈ l, hoursNum e.hours = none) :
    l.foldl (fun s e => jsAdd s (hoursNum e.hours)) acc = none := by
  induction l generalizing acc with
  | nil => simp at h
  | cons a t ih =>
    rcases h with ⟨e, he, hnone⟩
    rcases List.mem_cons.mp he with rfl | ht
    · have : jsAdd acc (hoursNum e.hours) = none := by
        rw [hnone]; cases acc <;> rfl
      simp only [List.foldl_cons, this]
      exact foldl_jsAdd_none t
    · exact ih _ ⟨e, ht, hnone⟩

theorem volLe_trans (a b c : Volunteer) (hab : volLe a b = true) (hbc : volLe b c = true) :
    volLe a c = true := by
  simp only [volLe, decide_eq_true_eq] at *
  exact le_trans hab hbc

theorem volLe_total (a b : Volunteer) : (volLe a b || volLe b a) = true := by
  simp only [volLe, Bool.or_eq_true, decide_eq_true_eq]
  exact le_total _ _

/-- C1: for every input, the Volunteers worksheet carries the header
[ID, Name, Phone, Email, Total Hours], one row per volunteer, the rows
ordered ascending by the lowercased name, and the display identifier of
each row is its 1-based position, exactly 1..N with no gaps and
independent of the stored opaque ids. -/
theorem C1_volunteers_worksheet (vs : List Volunteer) (events : List Event) :
    (volunteersSheet vs events).title = "Volunteers" ∧
    (volunteersSheet vs events).header = ["ID", "Name", "Phone", "Email", "Total Hours"] ∧
    (volunteersSheet vs events).rows = (sortedVolunteers vs).enum.map (volunteerRow events) ∧
    (volunteersSheet vs events).rows.length = vs.length ∧
    (sortedVolunteers vs).Perm vs ∧
    (sortedVolunteers vs).Pairwise (fun a b => nameLower a.name ≤ nameLower b.name) ∧
    (volunteersSheet vs events).rows.map (fun r => r.head?) =
      (List.range vs.length).map (fun i => some (Cell.num (i + 1))) := by
  refine ⟨rfl, rfl, rfl, ?_, List.mergeSort_perm vs volLe, ?_, ?_⟩
  · simp [volunteersSheet, sortedVolunteers, List.length_mergeSort]
  · exact (List.sorted_mergeSort volLe_trans volLe_total vs).imp
      (fun h => by simpa [volLe, decide_eq_true_eq] using h)
  · have h1 : (volunteersSheet vs events).rows.map (fun r => r.head?) =
        (sortedVolunteers vs).enum.map (fun p => some (Cell.num (p.1 + 1))) := by
      simp only [volunteersSheet, List.map_map]
      rfl
    rw [h1]
    have h2 : ((sortedVolunteers vs).enum.map (fun p => some (Cell.num (p.1 + 1)))) =
        ((sortedVolunteers vs).enum.map Prod.fst).map (fun i => some (Cell.num (i + 1))) := by
      rw [List.map_map]
      rfl
    rw [h2, List.enum_map_fst]
    have h3 : (sortedVolunteers vs).length = vs.length := by
      simp [sortedVolunteers, List.length_mergeSort]
    rw [h3]

/-- C2 (amended): the Total Hours cell of a volunteer is computed from
exactly the events whose volunteerId matches; a missing or empty hours
field contributes 0 and the sum is rendered with two decimals, but a
present hours value on which parseFloat fails makes the whole total NaN,
rendered as the string NaN rather than contributing 0. -/
theorem C2_total_hours (events : List Event) (v : Volunteer) :
    ((∀ e ∈ eventsOf events v, (hoursNum e.hours).isSome = true) →
      ∃ F, volunteerTotalHours events v = some F ∧
        fracVal F = ((eventsOf events v).map (fun e => fracValOpt (hoursNum e.hours))).sum ∧
        jsToFixed2 (volunteerTotalHours events v) = jsToFixed2 (some F)) ∧
    ((∃ e ∈ eventsOf events v, hoursNum e.hours = none) →
      jsToFixed2 (volunteerTotalHours events v) = "NaN") ∧
    (∀ vs, (volunteersSheet vs events).rows.map (fun r => r.getLast?) =
      (sortedVolunteers vs).map (fun w => some (Cell.str (jsToFixed2 (volunteerTotalHours events w))))) := by
  refine ⟨?_, ?_, ?_⟩
  · intro h
    rcases foldl_jsAdd_ok (eventsOf events v) ⟨0, 1⟩ (by decide) h with ⟨F, hF, _, hval⟩
    refine ⟨F, hF, ?_, by rw [volunteerTotalHours, hF]⟩
    rw [hval]
    simp [fracVal]
  · intro h
    rw [volunteerTotalHours, foldl_jsAdd_bad _ _ h]
    rfl
  · intro vs
    have h1 : (volunteersSheet vs events).rows.map (fun r => r.getLast?) =
        (sortedVolunteers vs).enum.map
          (fun p => some (Cell.str (jsToFixed2 (volunteerTotalHours events p.2)))) := by
      simp only [volunteersSheet, List.map_map]
      rfl
    rw [h1]
    have h2 : (sortedVolunteers vs).enum.map
          (fun p => some (Cell.str (jsToFixed2 (volunteerTotalHours events p.2)))) =
        ((sortedVolunteers vs).enum.map Prod.snd).map
          (fun w => some (Cell.str (jsToFixed2 (volunteerTotalHours events w)))) := by
      rw [List.map_map]
      rfl
    rw [h2, List.enum_map_snd]

/-- C2 counterexample: an event with the unparsable hours value abc makes
the Total Hours cell the string NaN, not 0.00 as the claim would require. -/
theorem C2_counterexample :
    (volunteersSheet [⟨"v1", "Alice", "555", "a@x"⟩]
        [⟨"e1", "v1", "Ev", "L", "2024-01-01", some "abc"⟩]).rows =
      [[Cell.num 1, Cell.str "Alice", Cell.str "555", Cell.str "a@x", Cell.str "NaN"]] ∧
    Cell.str "NaN" ≠ Cell.str "0.00" := by
  constructor
  · simp only [volunteersSheet, sortedVolunteers, List.mergeSort_singleton]
    decide
  · decide

/-- C2 witness: hours 2 and 1.5 all parse, the theorem applies and the
rendered total is 3.50. -/
theorem C2_witness :
    (∀ e ∈ eventsOf
        [⟨"e1", "v1", "Ev", "L", "2024-01-01", some "2"⟩,
         ⟨"e2", "v1", "Ev2", "L2", "2024-01-02", some "1.5"⟩]
        (⟨"v1", "Alice", "555", "a@x"⟩ : Volunteer), (hoursNum e.hours).isSome = true) ∧
    (∃ F, volunteerTotalHours
        [⟨"e1", "v1", "Ev", "L", "2024-01-01", some "2"⟩,
         ⟨"e2", "v1", "Ev2", "L2", "2024-01-02", some "1.5"⟩]
        ⟨"v1", "Alice", "555", "a@x"⟩ = some F ∧
      fracVal F = ((eventsOf
        [⟨"e1", "v1", "Ev", "L", "2024-01-01", some "2"⟩,
         ⟨"e2", "v1", "Ev2", "L2", "2024-01-02", some "1.5"⟩]
        ⟨"v1", "Alice", "555", "a@x"⟩).map (fun e => fracValOpt (hoursNum e.hours))).sum ∧
      jsToFixed2 (volunteerTotalHours
        [⟨"e1", "v1", "Ev", "L", "2024-01-01", some "2"⟩,
         ⟨"e2", "v1", "Ev2", "L2", "2024-01-02", some "1.5"⟩]
        ⟨"v1", "Alice", "555", "a@x"⟩) = jsToFixed2 (some F)) ∧
    jsToFixed2 (volunteerTotalHours
        [⟨"e1", "v1", "Ev", "L", "2024-01-01", some "2"⟩,
         ⟨"e2", "v1", "Ev2", "L2", "2024-01-02", some "1.5"⟩]
        ⟨"v1", "Alice", "555", "a@x"⟩) = "3.50" := by
  refine ⟨by decide, (C2_total_hours _ _).1 (by decide), by decide⟩

/-- Total comparator on events by the sentinel-completed date key; agrees
with evDateLe on events whose dates parse. -/
def goodDateLe (a b : Event) : Bool :=
  decide ((jsDateValue a.date).getD 0 ≤ (jsDateValue b.date).getD 0)

theorem goodDateLe_trans (a b c : Event) (hab : goodDateLe a b = true)
    (hbc : goodDateLe b c = true) : goodDateLe a c = true := by
  simp only [goodDateLe, decide_eq_true_eq] at *
  exact le_trans hab hbc

theorem goodDateLe_total (a b : Event) : (goodDateLe a b || goodDateLe b a) = true := by
  simp only [goodDateLe, Bool.or_eq_true, decide_eq_true_eq]
  exact Nat.le_total _ _

theorem mergeSort_congr_mem {r s : Event → Event → Bool} (l : List Event)
    (h : ∀ a ∈ l, ∀ b ∈ l, r a b = s a b) : l.mergeSort r = l.mergeSort s := by
  have := List.map_mergeSort (f := fun x => x) (l := l) (r := r) (s := s) h
  simpa using this

theorem evDateLe_eq_goodDateLe {a b : Event} (ha : (jsDateValue a.date).isSome = true)
    (hb : (jsDateValue b.date).isSome = true) : evDateLe a b = goodDateLe a b := by
  rcases Option.isSome_iff_exists.mp ha with ⟨x, hx⟩
  rcases Option.isSome_iff_exists.mp hb with ⟨y, hy⟩
  simp [evDateLe, goodDateLe, hx, hy]

theorem jsSortEventsByDate_perm (evs : List Event) : (jsSortEventsByDate evs).Perm evs :=
  List.mergeSort_perm evs evDateLe

theorem jsSortEventsByDate_sorted (evs : List Event)
    (hd : ∀ e ∈ evs, (jsDateValue e.date).isSome = true) :
    (jsSortEventsByDate evs).Pairwise (fun a b => evDateLe a b = true) := by
  have hcongr : jsSortEventsByDate evs = evs.mergeSort goodDateLe := by
    exact mergeSort_congr_mem evs (fun a ha b hb => evDateLe_eq_goodDateLe (hd a ha) (hd b hb))
  rw [hcongr]
  have hs := List.sorted_mergeSort goodDateLe_trans goodDateLe_total evs
  refine hs.imp_of_mem ?_
  intro a b ha hb hgood
  have ha' : a ∈ evs := (List.mergeSort_perm evs goodDateLe).mem_iff.mp ha
  have hb' : b ∈ evs := (List.mergeSort_perm evs goodDateLe).mem_iff.mp hb
  rw [evDateLe_eq_goodDateLe (hd a ha') (hd b hb')]
  exact hgood

theorem countP_volunteerSheets (vs : List Volunteer) (events : List Event) (v : Volunteer) :
    (volunteerSheets vs events).countP (fun p => p.1 == v) =
      if eventsOf events v = [] then 0 else (sortedVolunteers vs).countP (fun w => w == v) := by
  unfold volunteerSheets
  generalize sortedVolunteers vs = l
  induction l with
  | nil => simp
  | cons a t ih =>
    by_cases hav : a = v
    · subst hav
      by_cases he : eventsOf events a = []
      · simp [List.filterMap_cons, he, ih]
      · simp [List.filterMap_cons, he, ih, List.countP_cons]
    · have hne : (a == v) = false := beq_eq_false_iff_ne.mpr hav
      by_cases he : eventsOf events a = []
      · simp [List.filterMap_cons, he, ih, hne]
      · simp [List.filterMap_cons, he, ih, List.countP_cons, hne]

theorem mem_volunteerSheets (vs : List Volunteer) (events : List Event)
    (p : Volunteer × Sheet) (hp : p ∈ volunteerSheets vs events) :
    p.2 = volunteerSheet p.1 events ∧ eventsOf events p.1 ≠ [] := by
  have hp2 : p ∈ (sortedVolunteers vs).filterMap
      (fun w => if eventsOf events w = [] then none else some (w, volunteerSheet w events)) := hp
  rcases List.mem_filterMap.mp hp2 with ⟨a, _, hfa⟩
  by_cases he : eventsOf events a = []
  · simp [he] at hfa
  · rw [if_neg he] at hfa
    obtain rfl : (a, volunteerSheet a events) = p := by simpa using hfa
    exact ⟨rfl, he⟩

/-- C3: a volunteer with no matching events produces no individual
worksheet write; a volunteer (occurring once) with matching events
produces exactly one, whose rows are those events sorted by parsed date
ascending, each row carrying a fresh 1-based display identifier 1..M
computed from the local event list only. -/
theorem C3_individual_worksheets (vs : List Volunteer) (events : List Event) (v : Volunteer)
    (hv : vs.countP (fun w => w == v) = 1)
    (hd : ∀ e ∈ eventsOf events v, (jsDateValue e.date).isSome = true) :
    (eventsOf events v = [] →
      (volunteerSheets vs events).countP (fun p => p.1 == v) = 0) ∧
    (eventsOf events v ≠ [] →
      (volunteerSheets vs events).countP (fun p => p.1 == v) = 1) ∧
    (∀ p ∈ volunteerSheets vs events, p.1 = v → p.2 = volunteerSheet v events) ∧
    (volunteerSheet v events).rows = (jsSortEventsByDate (eventsOf events v)).enum.map eventRow ∧
    (jsSortEventsByDate (eventsOf events v)).Perm (eventsOf events v) ∧
    (jsSortEventsByDate (eventsOf events v)).Pairwise (fun a b => evDateLe a b = true) ∧
    (volunteerSheet v events).rows.map (fun r => r.head?) =
      (List.range (eventsOf events v).length).map (fun i => some (Cell.num (i + 1))) := by
  have hperm : (sortedVolunteers vs).countP (fun w => w == v) = 1 := by
    have h1 : (sortedVolunteers vs).countP (fun w => w == v) = vs.countP (fun w => w == v) :=
      (List.mergeSort_perm vs volLe).countP_eq _
    rw [h1, hv]
  refine ⟨?_, ?_, ?_, rfl, jsSortEventsByDate_perm _, jsSortEventsByDate_sorted _ hd, ?_⟩
  · intro he
    rw [countP_volunteerSheets, if_pos he]
  · intro he
    rw [countP_volunteerSheets, if_neg he, hperm]
  · intro p hp hpv
    have := (mem_volunteerSheets vs events p hp).1
    rw [this, hpv]
  · have h1 : (volunteerSheet v events).rows.map (fun r => r.head?) =
        (jsSortEventsByDate (eventsOf events v)).enum.map
          (fun p => some (Cell.num (p.1 + 1))) := by
      simp only [volunteerSheet, List.map_map]
      rfl
    rw [h1]
    have h2 : (jsSortEventsByDate (eventsOf events v)).enum.map
          (fun p => some (Cell.num (p.1 + 1))) =
        ((jsSortEventsByDate (eventsOf events v)).enum.map Prod.fst).map
          (fun i => some (Cell.num (i + 1))) := by
      rw [List.map_map]
      rfl
    rw [h2, List.enum_map_fst]
    have h3 : (jsSortEventsByDate (eventsOf events v)).length = (eventsOf events v).length :=
      (jsSortEventsByDate_perm _).length_eq
    rw [h3]

/-- C3 witness: one volunteer with one event gets exactly one individual
worksheet. -/
theorem C3_witness :
    ([⟨"v1", "Alice", "555", "a@x"⟩] : List Volunteer).countP
        (fun w => w == ⟨"v1", "Alice", "555", "a@x"⟩) = 1 ∧
    (∀ e ∈ eventsOf [⟨"e1", "v1", "Ev", "L", "2024-01-01", some "2"⟩]
        (⟨"v1", "Alice", "555", "a@x"⟩ : Volunteer), (jsDateValue e.date).isSome = true) ∧
    (volunteerSheets [⟨"v1", "Alice", "555", "a@x"⟩]
        [⟨"e1", "v1", "Ev", "L", "2024-01-01", some "2"⟩]).countP
      (fun p => p.1 == ⟨"v1", "Alice", "555", "a@x"⟩) = 1 :=
  ⟨by decide, by decide,
    (C3_individual_worksheets [⟨"v1", "Alice", "555", "a@x"⟩]
      [⟨"e1", "v1", "Ev", "L", "2024-01-01", some "2"⟩]
      ⟨"v1", "Alice", "555", "a@x"⟩ (by decide) (by decide)).2.1 (by decide)⟩

theorem runPlan_all_ok (oracle : Sheet → Option String) (l : List Sheet)
    (h : ∀ s ∈ l, oracle s = none) : runPlan oracle l = (l, none) := by
  induction l with
  | nil => rfl
  | cons s rest ih =>
    have hs : oracle s = none := h s (by simp)
    simp [runPlan, hs, ih (fun t ht => h t (by simp [ht]))]

theorem runPlan_first_err (oracle : Sheet → Option String) (pre : List Sheet) (s : Sheet)
    (post : List Sheet) (m : String) (hpre : ∀ t ∈ pre, oracle t = none)
    (hs : oracle s = some m) :
    runPlan oracle (pre ++ s :: post) = (pre ++ [s], some m) := by
  induction pre with
  | nil => simp [runPlan, hs]
  | cons a t ih =>
    have ha : oracle a = none := hpre a (by simp)
    simp [runPlan, ha, ih (fun u hu => hpre u (by simp [hu]))]

/-- C4: worksheet writes happen one at a time, the Volunteers summary
first and then one sheet per sorted volunteer with events; a run with no
failing write performs the whole plan and returns success, and a failure
at any single write aborts the remaining writes and yields a structured
failure result carrying that message instead of throwing. -/
theorem C4_sequential_writes (oracle : Sheet → Option String) (sc : SheetsConfig)
    (vs : List Volunteer) (events : List Event)
    (hid : jsTruthy sc.spreadsheetId = true) (hcr : sc.credentials ≠ none) :
    syncPlan vs events = volunteersSheet vs events :: (volunteerSheets vs events).map Prod.snd ∧
    ((∀ s ∈ syncPlan vs events, oracle s = none) →
      syncToGoogleSheets oracle (some sc) vs events =
        (syncPlan vs events, .ok vs.length events.length)) ∧
    (∀ pre s post m, syncPlan vs events = pre ++ s :: post →
      (∀ t ∈ pre, oracle t = none) → oracle s = some m →
      syncToGoogleSheets oracle (some sc) vs events = (pre ++ [s], .err m)) := by
  have hcond : ¬(jsTruthy sc.spreadsheetId = false ∨ sc.credentials = none) := by
    rw [hid]
    simp [hcr]
  refine ⟨rfl, ?_, ?_⟩
  · intro h
    rw [syncToGoogleSheets, if_neg hcond, runPlan_all_ok oracle _ h]
  · intro pre s post m hplan hpre hs
    rw [syncToGoogleSheets, if_neg hcond, hplan, runPlan_first_err oracle pre s post m hpre hs]

/-- C4 witness: with an oracle that fails on the Volunteers sheet, the
sync attempts only that first write and returns the failure result. -/
theorem C4_witness :
    syncToGoogleSheets (fun s => if s.title = "Volunteers" then some "boom" else none)
        (some ⟨some "sheet1", some ⟨some "sa@example.com"⟩⟩) [] [] =
      ([volunteersSheet [] []], .err "boom") := by
  have hplan : syncPlan ([] : List Volunteer) ([] : List Event) =
      [] ++ volunteersSheet [] [] :: [] := by
    simp [syncPlan, volunteerSheets, sortedVolunteers]
  have h := (C4_sequential_writes (fun s => if s.title = "Volunteers" then some "boom" else none)
      ⟨some "sheet1", some ⟨some "sa@example.com"⟩⟩ [] [] (by decide) (by decide)).2.2
      [] (volunteersSheet [] []) [] "boom" hplan (by simp) (by rfl)
  simpa using h

/-- C5: a sync invoked with the configuration absent, or lacking a truthy
spreadsheet identifier, or lacking a credentials object, returns the
configuration failure result and attempts no worksheet write at all. -/
theorem C5_config_incomplete (oracle : Sheet → Option String) (cfg : Option SheetsConfig)
    (vs : List Volunteer) (events : List Event)
    (h : cfg = none ∨ ∃ sc, cfg = some sc ∧
      (jsTruthy sc.spreadsheetId = false ∨ sc.credentials = none)) :
    syncToGoogleSheets oracle cfg vs events =
      ([], .err "Google Sheets configuration is incomplete") := by
  rcases h with rfl | ⟨sc, rfl, hsc⟩
  · rfl
  · rw [syncToGoogleSheets, if_pos hsc]

/-- C5 witness: a configuration with no credentials object fails without
any attempted write. -/
theorem C5_witness :
    syncToGoogleSheets (fun _ => none) (some ⟨some "sheet1", none⟩)
        [⟨"v1", "Alice", "555", "a@x"⟩] [] =
      ([], .err "Google Sheets configuration is incomplete") :=
  C5_config_incomplete _ _ _ _ (Or.inr ⟨⟨some "sheet1", none⟩, rfl, Or.inr rfl⟩)

theorem myPreAppend (p t : List Char) : p.isPrefixOf (p ++ t) = true := by
  induction p with
  | nil => cases t <;> rfl
  | cons c cs ih => simp [List.isPrefixOf, ih]

theorem hasSub_nil_pat (l : List Char) : hasSub [] l = true := by
  cases l <;> simp [hasSub, List.isPrefixOf]

theorem hasSub_here (p t : List Char) : hasSub p (p ++ t) = true := by
  cases p with
  | nil => exact hasSub_nil_pat t
  | cons c cs =>
    show hasSub (c :: cs) (c :: (cs ++ t)) = true
    simp [hasSub, myPreAppend]

theorem hasSub_append_left (a p t : List Char) : hasSub p (a ++ (p ++ t)) = true := by
  induction a with
  | nil => simpa using hasSub_here p t
  | cons c cs ih => simp [hasSub, ih]

theorem strIncludes_concat (a e b : String) : strIncludes (a ++ e ++ b) e = true := by
  show hasSub e.data (a ++ e ++ b).data = true
  have hdata : (a ++ e ++ b).data = a.data ++ (e.data ++ b.data) := by
    simp [String.data_append]
  rw [hdata]
  exact hasSub_append_left _ _ _

theorem strIncludes_perm_ne_empty {e : String} (h : strIncludes e "permission" = true) :
    e ≠ "" := by
  intro he
  subst he
  exact absurd h (by decide)

theorem syncRoute_err (ap : String) (sc : SheetsConfig) (vs : List Volunteer)
    (events : List Event) (oracle : Sheet → Option String) (e : String)
    (hid : jsTruthy sc.spreadsheetId = true)
    (herr : (syncToGoogleSheets oracle (some sc) vs events).2 = .err e) :
    (syncRoute ⟨ap, some sc⟩ vs events oracle).1 =
      if e ≠ "" ∧ strIncludes e "permission" = true then
        .permissionDenied (permissionMessage (serviceEmailOf sc)) (serviceEmailOf sc)
      else .serverError (if e = "" then "Unknown error during sync" else e) (serviceEmailOf sc) := by
  unfold syncRoute
  dsimp only
  rw [if_neg (by simp [hid]), herr]
  split
  next vc ec heq => simp at heq
  next e2 heq =>
    injection heq with h
    subst h
    by_cases hc : ¬e = "" ∧ strIncludes e "permission" = true
    · rw [if_pos hc, if_pos hc]
    · rw [if_neg hc, if_neg hc]

/-- C6 (amended): after a failed sync the facade answers 403 naming the
configured client_email exactly when the error message contains the
substring permission; any other failure yields a 500 whose error field is
the raw message when that message is nonempty, and the fixed text Unknown
error during sync when the sync error message is empty. -/
theorem C6_facade_error_mapping (cfg : ServerConfig) (sc : SheetsConfig) (email : String)
    (vs : List Volunteer) (events : List Event) (oracle : Sheet → Option String) (e : String)
    (hcfg : cfg.sheetsConfig = some sc)
    (hid : jsTruthy sc.spreadsheetId = true)
    (hcr : sc.credentials = some ⟨some email⟩)
    (hem : email ≠ "")
    (herr : (syncToGoogleSheets oracle (some sc) vs events).2 = .err e) :
    (strIncludes e "permission" = true →
      (syncRoute cfg vs events oracle).1 = .permissionDenied (permissionMessage email) email ∧
      strIncludes (permissionMessage email) email = true) ∧
    (strIncludes e "permission" = false →
      (syncRoute cfg vs events oracle).1 =
        .serverError (if e = "" then "Unknown error during sync" else e) email) ∧
    (statusOf (syncRoute cfg vs events oracle).1 = 403 ↔ strIncludes e "permission" = true) := by
  obtain ⟨ap, sco⟩ := cfg
  have hsco : sco = some sc := hcfg
  subst hsco
  have hse : serviceEmailOf sc = email := by
    unfold serviceEmailOf
    rw [hcr]
    exact if_neg hem
  have hbranch := syncRoute_err ap sc vs events oracle e hid herr
  refine ⟨?_, ?_, ?_⟩
  · intro hinc
    rw [hbranch, if_pos ⟨strIncludes_perm_ne_empty hinc, hinc⟩, hse]
    exact ⟨rfl, strIncludes_concat _ _ _⟩
  · intro hninc
    rw [hbranch, if_neg (by simp [hninc]), hse]
  · cases hinc : strIncludes e "permission" with
    | true =>
      rw [hbranch, if_pos ⟨strIncludes_perm_ne_empty hinc, hinc⟩]
      simp [statusOf]
    | false =>
      rw [hbranch, if_neg (by simp [hinc])]
      simp [statusOf]

/-- C6 counterexample: a sync failure with an empty error message is
answered 500 carrying the fixed text Unknown error during sync, not the
raw (empty) error message. -/
theorem C6_counterexample :
    (syncRoute ⟨"admin123", some ⟨some "sheet1", some ⟨some "sa@example.com"⟩⟩⟩ [] []
        (fun _ => some "")).1 =
      SyncResponse.serverError "Unknown error during sync" "sa@example.com" ∧
    "Unknown error during sync" ≠ ("" : String) := by
  constructor
  · have herr : (syncToGoogleSheets (fun _ => some "")
        (some ⟨some "sheet1", some ⟨some "sa@example.com"⟩⟩) [] []).2 = .err "" := by
      simp [syncToGoogleSheets, jsTruthy, syncPlan, volunteerSheets, sortedVolunteers,
        List.mergeSort_nil, runPlan]
    rw [syncRoute_err "admin123" ⟨some "sheet1", some ⟨some "sa@example.com"⟩⟩ [] [] _ ""
      (by decide) herr]
    rw [if_neg (by simp)]
    decide
  · decide

/-- C6 witness: an error message containing permission is answered 403
naming the configured client_email. -/
theorem C6_witness :
    strIncludes "permission denied" "permission" = true ∧
    (syncRoute ⟨"admin123", some ⟨some "sheet1", some ⟨some "sa@example.com"⟩⟩⟩ [] []
        (fun _ => some "permission denied")).1 =
      .permissionDenied (permissionMessage "sa@example.com") "sa@example.com" := by
  have herr : (syncToGoogleSheets (fun _ => some "permission denied")
      (some ⟨some "sheet1", some ⟨some "sa@example.com"⟩⟩) [] []).2 = .err "permission denied" := by
    simp [syncToGoogleSheets, jsTruthy, syncPlan, volunteerSheets, sortedVolunteers,
      List.mergeSort_nil, runPlan]
  exact ⟨by decide,
    ((C6_facade_error_mapping ⟨"admin123", some ⟨some "sheet1", some ⟨some "sa@example.com"⟩⟩⟩
      ⟨some "sheet1", some ⟨some "sa@example.com"⟩⟩ "sa@example.com" [] [] _ "permission denied"
      rfl (by decide) rfl (by decide) herr).1 (by decide)).1⟩

/-- C7 (amended): the individual worksheet title is derived by replacing
every non alphanumeric character of the name with a space, prefixing
Volunteer - , and truncating the whole resulting title (prefix included)
to 30 characters; the name O Brien Smith with apostrophe and slash still
yields Volunteer - O Brien Smith. -/
theorem C7_worksheet_title :
    (∀ name, sheetTitle name = amendedTitle name) ∧
    sheetTitle "O\x27Brien/Smith" = "Volunteer - O Brien Smith" ∧
    (∀ vs events, ∀ p ∈ volunteerSheets vs events, p.2.title = sheetTitle p.1.name) := by
  refine ⟨?_, by decide, ?_⟩
  · intro name
    simp [sheetTitle, amendedTitle, String.data_append]
  · intro vs events p hp
    rw [(mem_volunteerSheets vs events p hp).1]
    rfl

/-- C7 counterexample: for a 26 character name the code truncates the
prefixed title to 30 characters, while the claim order of operations
(truncate the name, then prefix) would keep the whole name. -/
theorem C7_counterexample :
    sheetTitle "Abcdefghijklmnopqrstuvwxyz" = "Volunteer - Abcdefghijklmnopqr" ∧
    claimTitle "Abcdefghijklmnopqrstuvwxyz" = "Volunteer - Abcdefghijklmnopqrstuvwxyz" ∧
    sheetTitle "Abcdefghijklmnopqrstuvwxyz" ≠ claimTitle "Abcdefghijklmnopqrstuvwxyz" := by
  refine ⟨by decide, by decide, by decide⟩

/-- C7 witness: the title of a produced individual worksheet is the
derived title of its volunteer. -/
theorem C7_witness :
    (volunteerSheet (⟨"v1", "Alice", "555", "a@x"⟩ : Volunteer)
        [⟨"e1", "v1", "Ev", "L", "2024-01-01", some "2"⟩]).title = sheetTitle "Alice" := by
  have hmem : ((⟨"v1", "Alice", "555", "a@x"⟩ : Volunteer),
      volunteerSheet ⟨"v1", "Alice", "555", "a@x"⟩
        [⟨"e1", "v1", "Ev", "L", "2024-01-01", some "2"⟩]) ∈
      volunteerSheets [⟨"v1", "Alice", "555", "a@x"⟩]
        [⟨"e1", "v1", "Ev", "L", "2024-01-01", some "2"⟩] := by
    simp only [volunteerSheets, sortedVolunteers, List.mergeSort_singleton, List.filterMap_cons,
      List.filterMap_nil]
    rw [if_neg (by decide)]
    exact List.mem_cons_self _ _
  exact C7_worksheet_title.2.2 [⟨"v1", "Alice", "555", "a@x"⟩]
    [⟨"e1", "v1", "Ev", "L", "2024-01-01", some "2"⟩] _ hmem

theorem eraseIdx_findIdx_filter (l : List VolRec) (id : String)
    (hnd : (l.map VolRec.id).Nodup) (i : Nat)
    (hi : l.findIdx? (fun v => v.id == id) = some i) :
    l.eraseIdx i = l.filter (fun v => !(v.id == id)) := by
  induction l generalizing i with
  | nil => simp at hi
  | cons a t ih =>
    rw [List.map_cons] at hnd
    rw [List.findIdx?_cons] at hi
    by_cases ha : a.id = id
    · rw [if_pos (by simp [ha])] at hi
      obtain rfl : (0 : Nat) = i := by injection hi
      rw [List.eraseIdx_cons_zero, List.filter_cons_of_neg (by simp [ha])]
      symm
      rw [List.filter_eq_self]
      intro v hv
      have hvid : v.id ∈ t.map VolRec.id := List.mem_map_of_mem _ hv
      have hvne : v.id ≠ id := by
        intro hh
        exact (List.nodup_cons.mp hnd).1 (by rw [ha, ← hh]; exact hvid)
      simp [hvne]
    · rw [if_neg (by simp [ha]), List.findIdx?_succ] at hi
      rcases Option.map_eq_some'.mp hi with ⟨j, hj, rfl⟩
      rw [List.eraseIdx_cons_succ, List.filter_cons_of_pos (by simp [ha]),
        ih (List.Nodup.of_cons hnd) j hj]

/-- C8: deleting a stored volunteer id removes exactly the volunteer
carrying that id and exactly the events whose volunteerId equals it,
leaving every other record of both collections unchanged, and answers
200; an id not present answers 404 and changes neither collection. -/
theorem C8_delete_volunteer (st : ServerState) (id : String)
    (hnd : (st.volunteers.map VolRec.id).Nodup) :
    (id ∉ st.volunteers.map VolRec.id → deleteVolunteerRoute st id = (st, 404)) ∧
    (id ∈ st.volunteers.map VolRec.id →
      (deleteVolunteerRoute st id).2 = 200 ∧
      (deleteVolunteerRoute st id).1.volunteers =
        st.volunteers.filter (fun v => !(v.id == id)) ∧
      (deleteVolunteerRoute st id).1.events =
        st.events.filter (fun e => !(e.volunteerId == some id))) := by
  constructor
  · intro hnot
    have hnone : st.volunteers.findIdx? (fun v => v.id == id) = none := by
      rw [List.findIdx?_eq_none_iff]
      intro x hx
      exact beq_eq_false_iff_ne.mpr (fun h => hnot (h ▸ List.mem_map_of_mem _ hx))
    unfold deleteVolunteerRoute
    rw [hnone]
  · intro hmem
    have hsome : ∃ i, st.volunteers.findIdx? (fun v => v.id == id) = some i := by
      cases h : st.volunteers.findIdx? (fun v => v.id == id) with
      | none =>
        exfalso
        rcases List.mem_map.mp hmem with ⟨v, hv, hvid⟩
        have := List.findIdx?_eq_none_iff.mp h v hv
        rw [hvid] at this
        simp at this
      | some i => exact ⟨i, rfl⟩
    rcases hsome with ⟨i, hi⟩
    unfold deleteVolunteerRoute
    rw [hi]
    exact ⟨rfl, eraseIdx_findIdx_filter _ _ hnd i hi, rfl⟩

/-- C8 witness: deleting volunteer a from a two volunteer store removes
that volunteer and exactly its events. -/
theorem C8_witness :
    (("a" : String) ∈
      ([⟨"a", none, none, none, "t1"⟩, ⟨"b", none, none, none, "t2"⟩] : List VolRec).map
        VolRec.id) ∧
    (deleteVolunteerRoute
        ⟨[⟨"a", none, none, none, "t1"⟩, ⟨"b", none, none, none, "t2"⟩],
         [⟨"e1", some "a", none, none, "d1", none, "t3"⟩,
          ⟨"e2", some "b", none, none, "d2", none, "t4"⟩]⟩ "a").1.volunteers =
      ([⟨"a", none, none, none, "t1"⟩, ⟨"b", none, none, none, "t2"⟩] : List VolRec).filter
        (fun v => !(v.id == "a")) :=
  ⟨by decide,
    ((C8_delete_volunteer
      ⟨[⟨"a", none, none, none, "t1"⟩, ⟨"b", none, none, none, "t2"⟩],
       [⟨"e1", some "a", none, none, "d1", none, "t3"⟩,
        ⟨"e2", some "b", none, none, "d2", none, "t4"⟩]⟩ "a" (by decide)).2 (by decide)).2.1⟩

/-- C9 counterexample: a request body that itself carries an id field
overrides the server generated id, because the body spread comes after
the generated id in the object literal. -/
theorem C9_counterexample :
    (createVolunteerRoute ⟨[], []⟩ ⟨some "evil", none, none, none⟩ "gen-1" "now-1").2.2.id =
      "evil" ∧
    ("evil" : String) ≠ "gen-1" :=
  ⟨rfl, by decide⟩

/-- C9 (amended): creation appends exactly one record and leaves both
existing collections otherwise unchanged; the stored createdAt is always
the server timestamp, and the stored id is the server generated one
whenever the body carries no id field, while a body supplied id is
stored as given. -/
theorem C9_create_append_only (st : ServerState) (vbody : VolunteerBody) (ebody : EventBody)
    (genId now : String) :
    (createVolunteerRoute st vbody genId now).1.volunteers =
      st.volunteers ++ [mkVolRec vbody genId now] ∧
    (createVolunteerRoute st vbody genId now).1.events = st.events ∧
    (createVolunteerRoute st vbody genId now).2.1 = 201 ∧
    (mkVolRec vbody genId now).createdAt = now ∧
    (vbody.id = none → (mkVolRec vbody genId now).id = genId) ∧
    (∀ s, vbody.id = some s → (mkVolRec vbody genId now).id = s) ∧
    (createEventRoute st ebody genId now).1.events = st.events ++ [mkEvRec ebody genId now] ∧
    (createEventRoute st ebody genId now).1.volunteers = st.volunteers ∧
    (createEventRoute st ebody genId now).2.1 = 201 ∧
    (mkEvRec ebody genId now).createdAt = now ∧
    (ebody.id = none → (mkEvRec ebody genId now).id = genId) ∧
    (∀ s, ebody.id = some s → (mkEvRec ebody genId now).id = s) := by
  refine ⟨rfl, rfl, rfl, rfl, ?_, ?_, rfl, rfl, rfl, rfl, ?_, ?_⟩
  · intro h
    simp [mkVolRec, h]
  · intro s h
    simp [mkVolRec, h]
  · intro h
    simp [mkEvRec, h]
  · intro s h
    simp [mkEvRec, h]

/-- C9 witness: a body without an id receives the generated id and the
store is extended by exactly that record. -/
theorem C9_witness :
    ((⟨none, some "Alice", none, none⟩ : VolunteerBody).id = none) ∧
    (mkVolRec ⟨none, some "Alice", none, none⟩ "gen-1" "now-1").id = "gen-1" ∧
    (createVolunteerRoute ⟨[], []⟩ ⟨none, some "Alice", none, none⟩ "gen-1" "now-1").1.volunteers =
      [] ++ [mkVolRec ⟨none, some "Alice", none, none⟩ "gen-1" "now-1"] :=
  ⟨rfl,
    (C9_create_append_only ⟨[], []⟩ ⟨none, some "Alice", none, none⟩
      ⟨none, none, none, none, none, none⟩ "gen-1" "now-1").2.2.2.2.1 rfl,
    (C9_create_append_only ⟨[], []⟩ ⟨none, some "Alice", none, none⟩
      ⟨none, none, none, none, none, none⟩ "gen-1" "now-1").1⟩

/-- C10: a fully successful sync returns success with volunteersCount and
eventsCount equal to the raw lengths of the input collections, counting
volunteers without events and orphaned events alike, and the facade 200
response reports the same raw lengths. -/
theorem C10_success_counts (cfg : ServerConfig) (sc : SheetsConfig) (vs : List Volunteer)
    (events : List Event) (oracle : Sheet → Option String)
    (hcfg : cfg.sheetsConfig = some sc)
    (hid : jsTruthy sc.spreadsheetId = true)
    (hcr : sc.credentials ≠ none)
    (hok : ∀ s ∈ syncPlan vs events, oracle s = none) :
    syncToGoogleSheets oracle (some sc) vs events =
      (syncPlan vs events, .ok vs.length events.length) ∧
    (syncRoute cfg vs events oracle).1 = .ok (successMessage sc) vs.length events.length := by
  have hcond : ¬(jsTruthy sc.spreadsheetId = false ∨ sc.credentials = none) := by
    rw [hid]
    simp [hcr]
  have hsync : syncToGoogleSheets oracle (some sc) vs events =
      (syncPlan vs events, .ok vs.length events.length) := by
    rw [syncToGoogleSheets, if_neg hcond, runPlan_all_ok oracle _ hok]
  refine ⟨hsync, ?_⟩
  obtain ⟨ap, sco⟩ := cfg
  have hsco : sco = some sc := hcfg
  subst hsco
  unfold syncRoute
  dsimp only
  rw [if_neg (by simp [hid]), hsync]

/-- C10 witness: one volunteer with no events plus one orphaned event
still count as 1 and 1. -/
theorem C10_witness :
    (syncToGoogleSheets (fun _ => none)
        (some ⟨some "sheet1", some ⟨some "sa@example.com"⟩⟩)
        [⟨"v1", "Alice", "555", "a@x"⟩]
        [⟨"e9", "nobody", "X", "L", "2024-01-01", some "2"⟩]).2 = .ok 1 1 := by
  have h := (C10_success_counts
      ⟨"admin123", some ⟨some "sheet1", some ⟨some "sa@example.com"⟩⟩⟩
      ⟨some "sheet1", some ⟨some "sa@example.com"⟩⟩
      [⟨"v1", "Alice", "555", "a@x"⟩]
      [⟨"e9", "nobody", "X", "L", "2024-01-01", some "2"⟩]
      (fun _ => none) rfl (by decide) (by decide) (fun s _ => rfl)).1
  rw [h]
  rfl
